import Mathlib

/-
Verification of the PRIDE immunopeptidomics data-collection scripts.

The Python sources are shallowly embedded: strings become `List Char`,
Python `str.lower` becomes a character map, substring containment becomes
an executable scan over list tails, and the character-level JSON scanners
become explicit step functions folded over the input character list.
Machine integers that may go negative (the brace-depth counter) are `Int`.
-/

/-! ## Shared text utilities (Python string primitives) -/

/-- ASCII lower-casing of one character, as Python `str.lower` acts on the
ASCII vocabulary used throughout these scripts (`Char.toLower` from core). -/
def lowerList (cs : List Char) : List Char := cs.map Char.toLower

/-- Substring containment: `needle` occurs contiguously inside `hay`
(Python's `needle in hay`). Executable: scans every tail. -/
def containsSub (needle hay : List Char) : Bool :=
  hay.tails.any (fun t => needle.isPrefixOf t)

/-- The whitespace set of Python `str.strip()` (ASCII part). -/
def pyWs (c : Char) : Bool :=
  c = ' ' || c = '\t' || c = '\n' || c = '\r' || c = '\x0b' || c = '\x0c'

/-- Python `str.strip()`: drop whitespace from both ends. -/
def pyStrip (cs : List Char) : List Char :=
  ((cs.dropWhile pyWs).reverse.dropWhile pyWs).reverse

/-- Python `" ".join(xs)`. -/
def joinSpace : List (List Char) → List Char
  | [] => []
  | [x] => x
  | x :: xs => x ++ ' ' :: joinSpace xs

namespace FilterTsv

/-! ## `filter_tsv.py` — UltraStrictTSVFilter vocabulary and predicates -/

/-- STRICT immunopeptidomics keywords (`self.immunopeptidomics_keywords`). -/
def immunopeptidomics_keywords : List String :=
  ["immunopeptidomics", "immunopeptidomic", "immunopeptidome", "immunopeptide",
   "hla peptidome", "mhc peptidome", "antigen presentation", "peptide presentation",
   "t cell epitope", "cd8 epitope", "cd4 epitope", "hla class i", "hla class ii",
   "mhc class i", "mhc class ii", "hla-i", "hla-ii", "mhc-i", "mhc-ii",
   "human leukocyte antigen peptidome", "major histocompatibility complex peptidome"]

/-- Cancer-related keywords, searched in the keywords field only
(`self.cancer_keywords`). -/
def cancer_keywords : List String :=
  ["cancer", "tumour", "tumor", "malignant", "benign", "oncology", "neoplasm",
   "carcinoma", "sarcoma", "leukemia", "lymphoma", "melanoma", "glioblastoma",
   "adenocarcinoma", "metastasis", "metastatic", "cancerous", "tumorous",
   "neuroblastoma", "oral cancer", "breast cancer", "lung cancer",
   "prostate cancer", "colorectal cancer", "pancreatic cancer", "ovarian cancer",
   "cervical cancer", "endometrial cancer", "thyroid cancer", "brain cancer",
   "bone cancer", "skin cancer", "stomach cancer", "esophageal cancer",
   "head and neck cancer", "testicular cancer", "adrenal cancer"]

/-- Terms to EXCLUDE unless immunopeptidomics is present (`self.exclude_terms`). -/
def exclude_terms : List String :=
  ["proteomics", "proteomic", "phosphoproteomics", "phosphoproteomic",
   "glycoproteomics", "glycoproteomic", "acetylproteomics", "acetylproteomic",
   "ubiquitinomics", "ubiquitinomic", "metabolomics", "metabolomic",
   "lipidomics", "lipidomic", "transcriptomics", "transcriptomic",
   "genomics", "genomic", "epigenomics", "epigenomic", "phosphorylation",
   "glycosylation", "acetylation", "ubiquitination", "methylation",
   "sumoylation", "palmitoylation", "myristoylation", "farnesylation",
   "geranylation"]

/-- `f"{keywords_str} {title_str} {description_str}".lower()` — the combined
search text of `check_strict_immunopeptidomics`. -/
def search_text (keywords_str title_str description_str : List Char) : List Char :=
  lowerList (keywords_str ++ ' ' :: title_str ++ ' ' :: description_str)

/-- `check_strict_immunopeptidomics`: reject when no immunopeptidomics keyword
occurs in the combined lower-cased text; otherwise run the exclude-term scan
and decide via the three-way branch of the source. -/
def check_strict_immunopeptidomics
    (keywords_str title_str description_str : List Char) : Bool :=
  let st := search_text keywords_str title_str description_str
  let has_immunopeptidomics :=
    immunopeptidomics_keywords.any (fun kw => containsSub (lowerList kw.toList) st)
  if has_immunopeptidomics = false then false
  else
    let other_omics_found :=
      exclude_terms.filter (fun ex => containsSub (lowerList ex.toList) st)
    if !other_omics_found.isEmpty && has_immunopeptidomics then true
    else if !other_omics_found.isEmpty && !has_immunopeptidomics then false
    else true

/-- A token of the instrument regexes: a literal run (matched with
`re.IGNORECASE`) or `\s+` (one or more whitespace characters). The nine
`timstof_patterns` of the source are exactly alternations of these. -/
inductive RTok where
  | lit : List Char → RTok
  | sp : RTok

/-- Case-insensitive character comparison, as `re.IGNORECASE`. -/
def ciEq (a b : Char) : Bool := Char.toLower a = Char.toLower b

/-- Match a token sequence against a prefix of `cs` (anchored match with
backtracking for `\s+`, regex semantics). -/
def matchToks : List RTok → List Char → Bool
  | [], _ => true
  | .lit [] :: ts, cs => matchToks ts cs
  | .lit (_ :: _) :: _, [] => false
  | .lit (x :: l) :: ts, c :: cs => ciEq x c && matchToks (.lit l :: ts) cs
  | .sp :: _, [] => false
  | .sp :: ts, c :: cs => pyWs c && (matchToks ts cs || matchToks (.sp :: ts) cs)
  termination_by ts cs => (cs.length, ts.length)

/-- `re.search`: try an anchored match at every position. -/
def searchToks (toks : List RTok) (cs : List Char) : Bool :=
  cs.tails.any (matchToks toks)

/-- The nine `self.timstof_patterns` of the source, tokenized. -/
def timstof_patterns : List (List RTok) :=
  [[.lit "timsTOF".toList],
   [.lit "timsTOF".toList, .sp, .lit "Pro".toList],
   [.lit "timsTOF".toList, .sp, .lit "Pro".toList, .sp, .lit "2".toList],
   [.lit "timsTOF".toList, .sp, .lit "SCP".toList],
   [.lit "timsTOF".toList, .sp, .lit "HT".toList],
   [.lit "timsTOF".toList, .sp, .lit "Flex".toList],
   [.lit "timsTOF".toList, .sp, .lit "Ultra".toList],
   [.lit "timsTOF".toList, .sp, .lit "Elite".toList],
   [.lit "timsTOF".toList, .sp, .lit "Discovery".toList]]

/-- `check_timstof_instrument`: empty guard, lower-case the field, then try
each regex pattern with `re.search(..., re.IGNORECASE)`. -/
def check_timstof_instrument (instruments_str : List Char) : Bool :=
  if instruments_str = [] then false
  else
    let instruments_lower := lowerList instruments_str
    timstof_patterns.any (fun p => searchToks p instruments_lower)

/-- The plain substring test of the claim: the instruments string is non-empty
and contains "timstof" as a case-insensitive substring. Stated from the
claim's words, to be compared with `check_timstof_instrument`. -/
def timstof_substring_spec (instruments_str : List Char) : Bool :=
  decide (instruments_str ≠ []) &&
    containsSub "timstof".toList (lowerList instruments_str)

/-- Anchored case-insensitive literal match (helper used to reason about
`matchToks` on `lit` tokens). -/
def ciStarts : List Char → List Char → Bool
  | [], _ => true
  | _ :: _, [] => false
  | x :: l, c :: cs => ciEq x c && ciStarts l cs

/-- `check_cancer_keywords_only`: cancer keywords searched in the (lower-cased)
keywords field alone; an empty keywords string is rejected up front. -/
def check_cancer_keywords_only (keywords_str : List Char) : Bool :=
  if keywords_str = [] then false
  else
    let keywords_lower := lowerList keywords_str
    cancer_keywords.any (fun kw => containsSub (lowerList kw.toList) keywords_lower)

end FilterTsv

namespace TestQuery

/-! ## `test_query.py` — live-query strict classifier -/

/-- The `sample` field of a project dictionary: a list of strings, a single
string, or anything else (Python `isinstance` dispatch). -/
inductive SampleVal where
  | lst : List (List Char) → SampleVal
  | strv : List Char → SampleVal
  | other : SampleVal

/-- A project as assembled by `get_pride_projects` (the fields the classifier
reads; each may be missing). -/
structure Project where
  title : Option (List Char)
  instrument : Option (List (List Char))
  diseases : Option (List (List Char))
  sample : SampleVal

/-- `REQUIRED_TERMS = ["immunopeptidomics", "cancer"]`. -/
def REQUIRED_TERMS : List String := ["immunopeptidomics", "cancer"]

/-- `SAMPLE_TERMS = ["cell line", "tissue", "xenograft"]`. -/
def SAMPLE_TERMS : List String := ["cell line", "tissue", "xenograft"]

/-- `REQUIRED_INSTRUMENT = "timsTOF"`. -/
def REQUIRED_INSTRUMENT : String := "timsTOF"

/-- The lower-cased sample text: a list is joined with spaces then lowered,
a string is lowered, anything else becomes the empty string. -/
def sampleText (p : Project) : List Char :=
  match p.sample with
  | .lst xs => lowerList (joinSpace xs)
  | .strv s => lowerList s
  | .other => []

/-- `title + " " + sample + " " + " ".join(diseases)` with title and each
disease lower-cased, as built inside `matches_strict_criteria`. -/
def combinedText (p : Project) : List Char :=
  lowerList (p.title.getD []) ++ ' ' :: sampleText p ++ ' ' ::
    joinSpace ((p.diseases.getD []).map lowerList)

/-- `matches_strict_criteria`: all required terms in the combined text, some
instrument containing "timstof", and some specimen-type term in the sample. -/
def matches_strict_criteria (p : Project) : Bool :=
  let instruments := (p.instrument.getD []).map lowerList
  let sample := sampleText p
  if !(REQUIRED_TERMS.all fun t => containsSub t.toList (combinedText p)) then false
  else if !(instruments.any fun i =>
      containsSub (lowerList REQUIRED_INSTRUMENT.toList) i) then false
  else if !(SAMPLE_TERMS.any fun t => containsSub t.toList sample) then false
  else true

/-- The accepted example of the claim: diseases=["Melanoma"],
sample=["xenograft model"], title="immunopeptidomics cancer study",
instrument=["timsTOF Pro"]. -/
def exampleAccepted : Project :=
  ⟨some "immunopeptidomics cancer study".toList,
   some ["timsTOF Pro".toList],
   some ["Melanoma".toList],
   .lst ["xenograft model".toList]⟩

/-- The rejected example: identical except the sample text mentions none of
the three specimen-type terms. -/
def exampleRejected : Project :=
  ⟨some "immunopeptidomics cancer study".toList,
   some ["timsTOF Pro".toList],
   some ["Melanoma".toList],
   .lst ["peptide extract".toList]⟩

end TestQuery

namespace UpdatedJsonParser

/-! ## `updated_json_parser.py` — streaming object scanner -/

/-- Scanner state of `find_json_objects_streaming`: accumulation buffer,
brace-depth counter (`Int`: the Python counter can go negative on stray
closing braces), in-string flag and escape-pending flag. -/
structure ScanState where
  buffer : List Char
  brace_count : Int
  in_string : Bool
  escape_next : Bool
deriving DecidableEq

/-- The initial scanner state. -/
def initState : ScanState := ⟨[], 0, false, false⟩

/-- One character of the streaming scanner loop. Returns the next state and
the candidate emitted on a depth transition to 0, if any. -/
def stepS (st : ScanState) (c : Char) : ScanState × Option (List Char) :=
  if st.escape_next then
    ({ st with escape_next := false, buffer := st.buffer ++ [c] }, none)
  else if c = '\\' then
    ({ st with escape_next := true, buffer := st.buffer ++ [c] }, none)
  else if c = '"' then
    ({ st with in_string := !st.in_string, buffer := st.buffer ++ [c] }, none)
  else if st.in_string = false then
    if c = '\x7b' then
      if st.brace_count = 0 then
        ({ st with buffer := [c], brace_count := st.brace_count + 1 }, none)
      else
        ({ st with buffer := st.buffer ++ [c], brace_count := st.brace_count + 1 }, none)
    else if c = '\x7d' then
      if st.brace_count - 1 = 0 then
        ({ st with buffer := [], brace_count := st.brace_count - 1 },
          some (pyStrip (st.buffer ++ [c])))
      else
        ({ st with buffer := st.buffer ++ [c], brace_count := st.brace_count - 1 }, none)
    else if st.brace_count > 0 then
      ({ st with buffer := st.buffer ++ [c] }, none)
    else (st, none)
  else ({ st with buffer := st.buffer ++ [c] }, none)

/-- Fold step accumulating emitted candidates. -/
def scanStep (acc : ScanState × List (List Char)) (c : Char) : ScanState × List (List Char) :=
  let r := stepS acc.1 c
  (r.1, acc.2 ++ r.2.toList)

/-- Run the streaming scanner over the whole character stream. -/
def scanS (cs : List Char) : ScanState × List (List Char) :=
  cs.foldl scanStep (initState, [])

/-- `find_json_objects_streaming`: all candidates emitted on depth
transitions to 0, plus the stripped leftover buffer when non-empty. -/
def find_json_objects_streaming (input : List Char) : List (List Char) :=
  let r := scanS input
  r.2 ++ (if pyStrip r.1.buffer = [] then [] else [pyStrip r.1.buffer])

end UpdatedJsonParser

namespace PrideNewParser

/-! ## `pride_new_parser.py` — format detection and concatenated-object scan -/

/-- Scanner state of the concatenated-object branch of `load_pride_json`:
unlike the streaming scanner, every character is first appended to
`current_obj`, which is only reset when a complete object is emitted. -/
structure CState where
  current_obj : List Char
  brace_count : Int
  in_string : Bool
  escape_next : Bool
deriving DecidableEq

/-- One character of the `load_pride_json` splitting loop. -/
def stepC (st : CState) (c : Char) : CState × Option (List Char) :=
  let st := { st with current_obj := st.current_obj ++ [c] }
  if st.escape_next then ({ st with escape_next := false }, none)
  else if c = '\\' then ({ st with escape_next := true }, none)
  else if c = '"' then ({ st with in_string := !st.in_string }, none)
  else if st.in_string = false then
    if c = '\x7b' then ({ st with brace_count := st.brace_count + 1 }, none)
    else if c = '\x7d' then
      if st.brace_count - 1 = 0 then
        ({ st with brace_count := st.brace_count - 1, current_obj := [] },
          some (pyStrip st.current_obj))
      else ({ st with brace_count := st.brace_count - 1 }, none)
    else (st, none)
  else (st, none)

/-- The candidate strings collected by the concatenated-object scanner of
`load_pride_json` (leftover `current_obj` at end of input is discarded,
as in the source). -/
def load_pride_json_scan (content : List Char) : List (List Char) :=
  (content.foldl (fun acc c => let r := stepC acc.1 c; (r.1, acc.2 ++ r.2.toList))
    ((⟨[], 0, false, false⟩ : CState), [])).2

/-- Python `line.startswith(p)` for a single-character p. -/
def startsWithChar (c : Char) : List Char → Bool
  | [] => false
  | x :: _ => x = c

/-- `detect_file_format`, on the file's lines (raw, as returned by
`readline`; missing lines are the empty string): only the first line is
consulted, stripped of surrounding whitespace. -/
def detect_file_format (lines : List (List Char)) : String :=
  let first_line := pyStrip (lines.headD [])
  if startsWithChar '\x7b' first_line || startsWithChar '[' first_line then "json"
  else if first_line.contains '\t' then "tsv"
  else if first_line.contains ',' && !startsWithChar '\x7b' first_line then "csv"
  else if startsWithChar '"' first_line &&
      (first_line.contains ',' || first_line.contains '\t') then
    (if first_line.contains ',' then "csv" else "tsv")
  else "unknown"

/-- The classifier as the claim words it: decide on the first NON-EMPTY line
(a line is empty when whitespace-only). Stated from the claim, to be compared
with `detect_file_format`. -/
def detect_format_claim (lines : List (List Char)) : String :=
  let first_line := pyStrip ((lines.find? (fun l => !(pyStrip l).isEmpty)).getD [])
  if startsWithChar '\x7b' first_line || startsWithChar '[' first_line then "json"
  else if first_line.contains '\t' then "tsv"
  else if first_line.contains ',' then "csv"
  else "unknown"

/-- The amended reading: the same decision tree applied to the FIRST line
(stripped), empty or not. -/
def detect_format_amended (lines : List (List Char)) : String :=
  let first_line := pyStrip (lines.headD [])
  if startsWithChar '\x7b' first_line || startsWithChar '[' first_line then "json"
  else if first_line.contains '\t' then "tsv"
  else if first_line.contains ',' then "csv"
  else "unknown"

end PrideNewParser

namespace PyJson

/-! ## A model of Python `json.loads` (strict mode)

The standard-library parser is not repository code; it is embedded here
following the JSON grammar `json.loads` accepts with default arguments:
objects, arrays, double-quoted strings with the eight standard escapes and
`\uXXXX` (surrogate pairs are not modelled), numbers kept as their source
lexemes, `true`/`false`/`null`, whitespace ` \t\n\r` between tokens;
unescaped control characters inside strings are an error (strict mode) and
leftover input after the top-level value is an error ("Extra data").
Object members stay an association list in source order (the inputs
exercised here have no duplicate keys). -/

/-- A parsed JSON value. Numbers are kept as their source lexeme. -/
inductive JVal where
  | null
  | bool : Bool → JVal
  | num : List Char → JVal
  | str : List Char → JVal
  | arr : List JVal → JVal
  | obj : List (List Char × JVal) → JVal

/-- JSON inter-token whitespace. -/
def jWs (c : Char) : Bool := c = ' ' || c = '\t' || c = '\n' || c = '\r'

/-- Skip inter-token whitespace. -/
def skipWs (cs : List Char) : List Char := cs.dropWhile jWs

/-- Value of one hexadecimal digit. -/
def hexVal (c : Char) : Option Nat :=
  if c.isDigit then some (c.toNat - 48)
  else if 'a' ≤ c && c ≤ 'f' then some (c.toNat - 87)
  else if 'A' ≤ c && c ≤ 'F' then some (c.toNat - 55)
  else none

/-- The eight single-character string escapes. -/
def escChar (e : Char) : Option Char :=
  if e = '"' then some '"'
  else if e = '\\' then some '\\'
  else if e = '/' then some '/'
  else if e = 'b' then some '\x08'
  else if e = 'f' then some '\x0c'
  else if e = 'n' then some '\n'
  else if e = 'r' then some '\r'
  else if e = 't' then some '\t'
  else none

/-- Parse a string body after the opening quote: the decoded characters and
the input after the closing quote. -/
def parseStringBody : List Char → Option (List Char × List Char)
  | [] => none
  | c :: cs =>
    if c = '"' then some ([], cs)
    else if c = '\\' then
      match cs with
      | [] => none
      | e :: cs2 =>
        if e = 'u' then
          match cs2 with
          | h1 :: h2 :: h3 :: h4 :: cs3 =>
            match hexVal h1, hexVal h2, hexVal h3, hexVal h4 with
            | some a, some b, some k, some d =>
              let code := ((a * 16 + b) * 16 + k) * 16 + d
              if code < 0xd800 then
                match parseStringBody cs3 with
                | some (s, r) => some (Char.ofNat code :: s, r)
                | none => none
              else none
            | _, _, _, _ => none
          | _ => none
        else
          match escChar e with
          | some ec =>
            match parseStringBody cs2 with
            | some (s, r) => some (ec :: s, r)
            | none => none
          | none => none
    else if c.toNat < 32 then none
    else
      match parseStringBody cs with
      | some (s, r) => some (c :: s, r)
      | none => none

/-- Optional fraction part `.[0-9]+` of a number. -/
def parseFracPart : List Char → Option (List Char × List Char)
  | '.' :: r =>
    let ds := r.takeWhile Char.isDigit
    if ds = [] then none else some ('.' :: ds, r.drop ds.length)
  | cs => some ([], cs)

/-- Optional exponent part `[eE][+-]?[0-9]+` of a number. -/
def parseExpPart : List Char → Option (List Char × List Char)
  | e :: r =>
    if e = 'e' || e = 'E' then
      let (sign, r2) :=
        match r with
        | s :: r3 => if s = '+' || s = '-' then (([s] : List Char), r3) else ([], s :: r3)
        | [] => (([] : List Char), ([] : List Char))
      let ds := r2.takeWhile Char.isDigit
      if ds = [] then none else some (e :: (sign ++ ds), r2.drop ds.length)
    else some ([], e :: r)
  | [] => some ([], [])

/-- Parse the number lexeme `-?(0|[1-9][0-9]*)(\.[0-9]+)?([eE][+-]?[0-9]+)?`
at the head of the input. -/
def parseNumber (cs : List Char) : Option (List Char × List Char) :=
  let (neg, cs1) :=
    match cs with
    | '-' :: r => ((['-'] : List Char), r)
    | _ => (([] : List Char), cs)
  let core : Option (List Char × List Char) :=
    match cs1 with
    | [] => none
    | c :: r =>
      if c = '0' then some (['0'], r)
      else if c.isDigit then
        some (c :: r.takeWhile Char.isDigit, r.drop (r.takeWhile Char.isDigit).length)
      else none
  match core with
  | none => none
  | some (ip, rest1) =>
    match parseFracPart rest1 with
    | none => none
    | some (fp, rest2) =>
      match parseExpPart rest2 with
      | none => none
      | some (ep, rest3) => some (neg ++ ip ++ fp ++ ep, rest3)

mutual

/-- Parse one JSON value starting at the head of `cs` (callers have skipped
whitespace). `fuel` only bounds recursion depth; every nested call strictly
consumes input, so the `length + 1` supplied by `loads` never runs out. -/
def parseValue : Nat → List Char → Option (JVal × List Char)
  | 0, _ => none
  | _ + 1, [] => none
  | fuel + 1, c :: rest =>
    if c = '\x7b' then
      match skipWs rest with
      | '\x7d' :: r => some (.obj [], r)
      | cs1 => parseMembers fuel cs1 []
    else if c = '[' then
      match skipWs rest with
      | ']' :: r => some (.arr [], r)
      | cs1 => parseElems fuel cs1 []
    else if c = '"' then
      match parseStringBody rest with
      | some (s, r) => some (.str s, r)
      | none => none
    else if ("true".toList).isPrefixOf (c :: rest) then some (.bool true, rest.drop 3)
    else if ("false".toList).isPrefixOf (c :: rest) then some (.bool false, rest.drop 4)
    else if ("null".toList).isPrefixOf (c :: rest) then some (.null, rest.drop 3)
    else
      match parseNumber (c :: rest) with
      | some (lex, r) => some (.num lex, r)
      | none => none

/-- Parse object members, a key string expected at the head. -/
def parseMembers : Nat → List Char → List (List Char × JVal) →
    Option (JVal × List Char)
  | 0, _, _ => none
  | fuel + 1, cs, acc =>
    match cs with
    | '"' :: rest =>
      match parseStringBody rest with
      | none => none
      | some (k, r1) =>
        match skipWs r1 with
        | ':' :: r3 =>
          match parseValue fuel (skipWs r3) with
          | none => none
          | some (v, r4) =>
            match skipWs r4 with
            | ',' :: r6 => parseMembers fuel (skipWs r6) (acc ++ [(k, v)])
            | '\x7d' :: r6 => some (.obj (acc ++ [(k, v)]), r6)
            | _ => none
        | _ => none
    | _ => none

/-- Parse array elements, a value expected at the head. -/
def parseElems : Nat → List Char → List JVal → Option (JVal × List Char)
  | 0, _, _ => none
  | fuel + 1, cs, acc =>
    match parseValue fuel cs with
    | none => none
    | some (v, r1) =>
      match skipWs r1 with
      | ',' :: r3 => parseElems fuel (skipWs r3) (acc ++ [v])
      | ']' :: r3 => some (.arr (acc ++ [v]), r3)
      | _ => none

end

/-- `json.loads`: one top-level value, whitespace allowed around it, any
leftover input is an error. -/
def loads (s : List Char) : Option JVal :=
  match parseValue (s.length + 1) (skipWs s) with
  | some (v, r) => if skipWs r = [] then some v else none
  | none => none

end PyJson

namespace UpdatedJsonParser

/-- One pass of `re.sub(r',\s*C', 'C', s)` for a class `C` of closing
characters: scanning left to right, a comma whose greedy whitespace run is
followed by a closer is replaced (with the run) by that closer, and
scanning resumes after it; `\s+` is followed by a non-whitespace literal,
so the greedy run needs no backtracking. -/
def subTCgo (closers : List Char) : Nat → List Char → List Char
  | 0, l => l
  | _ + 1, [] => []
  | fuel + 1, c :: rest =>
    if c = ',' then
      match rest.dropWhile pyWs with
      | d :: tail =>
        if closers.contains d then d :: subTCgo closers fuel tail
        else c :: subTCgo closers fuel rest
      | [] => c :: subTCgo closers fuel rest
    else c :: subTCgo closers fuel rest

/-- One pass of `re.sub(r',\s*C', 'C', s)` for a class `C` of closing
characters: scanning left to right, a comma whose greedy whitespace run is
followed by a closer is replaced (with the run) by that closer, and
scanning resumes after it; `\s+` is followed by a non-whitespace literal,
so the greedy run needs no backtracking. The fuel of the worker equals the
input length and every step consumes at least one character, so the fuel
never runs out. -/
def subTrailingComma (closers : List Char) (cs : List Char) : List Char :=
  subTCgo closers cs.length cs

/-- `\w` of the bare-key repair regex. -/
def isWordChar (c : Char) : Bool := c.isAlphanum || c = '_'

/-- `re.sub(r'(\w+):', r'"\1":', s)`: a maximal word run directly followed
by a colon is wrapped in quotes; a maximal run not followed by a colon
cannot match at any inner position either, so scanning resumes after it. -/
def subWCgo : Nat → List Char → List Char
  | 0, l => l
  | _ + 1, [] => []
  | fuel + 1, c :: rest =>
    if isWordChar c then
      match rest.drop (rest.takeWhile isWordChar).length with
      | ':' :: tail =>
        '"' :: (c :: rest.takeWhile isWordChar) ++ '"' :: ':' :: subWCgo fuel tail
      | after => (c :: rest.takeWhile isWordChar) ++ subWCgo fuel after
    else c :: subWCgo fuel rest

/-- `re.sub(r'(\w+):', r'"\1":', s)`: a maximal word run directly followed
by a colon is wrapped in quotes; a maximal run not followed by a colon
cannot match at any inner position either, so scanning resumes after it.
Fuel as in `subTrailingComma`. -/
def subWordColon (cs : List Char) : List Char :=
  subWCgo cs.length cs

/-- `clean_json_string`: drop NUL bytes, the three trailing-comma
substitutions, then strip surrounding whitespace. -/
def clean_json_string (json_str : List Char) : List Char :=
  let s1 := json_str.filter (fun c => !(c = '\x00'))
  let s2 := subTrailingComma ['\x7d'] s1
  let s3 := subTrailingComma [']'] s2
  let s4 := subTrailingComma ['\x7d', ']'] s3
  pyStrip s4

/-- `fix_json_object`: trailing-comma substitutions, quote bare keys,
convert single quotes to double quotes, strip. -/
def fix_json_object (json_str : List Char) : List Char :=
  let s1 := subTrailingComma ['\x7d'] json_str
  let s2 := subTrailingComma [']'] s1
  let s3 := subWordColon s2
  let s4 := s3.map (fun c => if c = Char.ofNat 39 then '"' else c)
  pyStrip s4

/-- `parse_json_object`: clean then parse strictly, accepting only
dictionaries; on a decode error, retry once on the aggressively repaired
original string. -/
def parse_json_object (json_str : List Char) :
    Option (List (List Char × PyJson.JVal)) :=
  match PyJson.loads (clean_json_string json_str) with
  | some (.obj o) => some o
  | some _ => none
  | none =>
    match PyJson.loads (fix_json_object json_str) with
    | some (.obj o) => some o
    | _ => none

/-- `self.target_fields`: canonical field name → ordered alias list. -/
def target_fields : List (String × List String) :=
  [("accession", ["accession", "id", "dataset_id", "pride_id"]),
   ("title", ["title", "dataset_title", "name"]),
   ("projectDescription", ["description", "project_description", "summary", "projectDescription"]),
   ("keywords", ["keywords", "tags"]),
   ("instruments", ["instruments", "instrument", "ms_instrument"]),
   ("submissionDate", ["submission_date", "submitted", "date_submitted", "submissionDate"]),
   ("publicationDate", ["publication_date", "published", "date_published", "publicationDate"]),
   ("doi", ["doi", "publication_doi"]),
   ("submitters", ["submitters", "authors", "contact"])]

/-- The string branch of `format_field_value`: tab, newline and carriage
return become spaces, then surrounding whitespace is stripped (records are
modelled with string field values, the TSV/CSV row case). -/
def format_field_value (value : List Char) : List Char :=
  pyStrip (value.map (fun c => if c = '\t' || c = '\n' || c = '\r' then ' ' else c))

/-- The alias loop shared by `extract_field_value` and the column mapping of
`load_pride_csv`: the first alias present in the record with a non-empty
(truthy) value. -/
def firstNonEmpty (dataset : List (String × List Char)) :
    List String → Option (List Char)
  | [] => none
  | a :: rest =>
    match dataset.lookup a with
    | some v => if v ≠ [] then some v else firstNonEmpty dataset rest
    | none => firstNonEmpty dataset rest

/-- `extract_field_value` over a string-valued record. -/
def extract_field_value (dataset : List (String × List Char))
    (field_name : String) : List Char :=
  match target_fields.lookup field_name with
  | none => []
  | some aliases =>
    match firstNonEmpty dataset aliases with
    | some v => format_field_value v
    | none => []

end UpdatedJsonParser

namespace PrideNewParser

/-- `column_mapping` of `load_pride_csv` (note: its alias lists differ
slightly from `target_fields`). -/
def column_mapping : List (String × List String) :=
  [("accession", ["accession", "id", "dataset_id", "pride_id"]),
   ("title", ["title", "dataset_title", "name"]),
   ("projectDescription", ["description", "project_description", "summary"]),
   ("keywords", ["keywords", "tags"]),
   ("instruments", ["instruments", "instrument", "ms_instrument"]),
   ("submissionDate", ["submission_date", "submitted", "date_submitted"]),
   ("publicationDate", ["publication_date", "published", "date_published"]),
   ("doi", ["doi", "publication_doi"]),
   ("submitters", ["submitters", "authors", "contact"])]

/-- The per-field assignment of the CSV loader: the first alias column
present in the row with a non-empty value (no assignment when none). -/
def map_column (row : List (String × List Char)) (standard_key : String) :
    Option (List Char) :=
  match column_mapping.lookup standard_key with
  | none => none
  | some cols => UpdatedJsonParser.firstNonEmpty row cols

end PrideNewParser

/-! ## Theorems -/

/-- C1: the bulk topical predicate accepts exactly when the lower-cased
concatenation of keywords, title and projectDescription contains at least one
INCLUDE (immunopeptidomics) term; the EXCLUDE list can never cause rejection
once an INCLUDE term is found. -/
theorem c1_strict_immunopeptidomics_iff_include_term
    (keywords_str title_str description_str : List Char) :
    FilterTsv.check_strict_immunopeptidomics keywords_str title_str description_str = true ↔
      ∃ kw ∈ FilterTsv.immunopeptidomics_keywords,
        containsSub (lowerList kw.toList)
          (FilterTsv.search_text keywords_str title_str description_str) = true := by
  unfold FilterTsv.check_strict_immunopeptidomics
  rcases h : FilterTsv.immunopeptidomics_keywords.any
      (fun kw => containsSub (lowerList kw.toList)
        (FilterTsv.search_text keywords_str title_str description_str)) with _ | _
  · simp only [h]
    simp [List.any_eq_true] at h
    simpa using h
  · simp only [h]
    rw [List.any_eq_true] at h
    rcases h with ⟨kw, hkw, hc⟩
    constructor
    · intro _
      exact ⟨kw, hkw, hc⟩
    · intro _
      rcases hf : (FilterTsv.exclude_terms.filter
          (fun ex => containsSub (lowerList ex.toList)
            (FilterTsv.search_text keywords_str title_str description_str))).isEmpty with _ | _
      · simp [hf]
      · simp [hf]

/-- C1 witness: a record whose text contains the INCLUDE term
"immunopeptidomics" together with the EXCLUDE term "proteomics" is accepted. -/
theorem c1_strict_immunopeptidomics_iff_include_term_witness :
    FilterTsv.check_strict_immunopeptidomics
      "immunopeptidomics; proteomics".toList "study".toList "desc".toList = true :=
  (c1_strict_immunopeptidomics_iff_include_term _ _ _).mpr
    ⟨"immunopeptidomics", by decide, by decide⟩

/-- C4: the domain (cancer) predicate holds exactly when some cancer-vocabulary
term occurs case-insensitively inside the keywords field alone; an empty
keywords field never satisfies it (title/description are never consulted). -/
theorem c4_cancer_keywords_only_iff
    (keywords_str : List Char) :
    FilterTsv.check_cancer_keywords_only keywords_str = true ↔
      keywords_str ≠ [] ∧
      ∃ kw ∈ FilterTsv.cancer_keywords,
        containsSub (lowerList kw.toList) (lowerList keywords_str) = true := by
  unfold FilterTsv.check_cancer_keywords_only
  rcases hk : keywords_str with _ | ⟨c, cs⟩
  · simp
  · simp [List.any_eq_true]

theorem char_toNat_ofNat_of_lt (n : Nat) (h : n < 0xd800) : (Char.ofNat n).toNat = n := by
  have hv : n.isValidChar := Or.inl h
  rw [Char.ofNat, dif_pos hv]
  simp [Char.ofNatAux, Char.toNat, UInt32.toNat, BitVec.toNat_ofNatLt]

theorem toLower_idem (c : Char) : Char.toLower (Char.toLower c) = Char.toLower c := by
  unfold Char.toLower
  by_cases h : c.toNat ≥ 65 ∧ c.toNat ≤ 90
  · rw [if_pos h]
    have h2 : (Char.ofNat (c.toNat + 32)).toNat = c.toNat + 32 :=
      char_toNat_ofNat_of_lt _ (by omega)
    rw [if_neg (by omega)]
  · rw [if_neg h, if_neg h]

theorem lowerList_fixed (s : List Char) : ∀ c ∈ lowerList s, Char.toLower c = c := by
  intro c hc
  rcases List.mem_map.mp hc with ⟨a, _, rfl⟩
  exact toLower_idem a

theorem matchToks_single_lit (l cs : List Char) :
    FilterTsv.matchToks [.lit l] cs = FilterTsv.ciStarts l cs := by
  induction l generalizing cs with
  | nil => simp [FilterTsv.matchToks, FilterTsv.ciStarts]
  | cons x l ih =>
    cases cs with
    | nil => simp [FilterTsv.matchToks, FilterTsv.ciStarts]
    | cons c cs => simp [FilterTsv.matchToks, FilterTsv.ciStarts, ih]

theorem matchToks_lit_head (l : List Char) (ts : List FilterTsv.RTok) (cs : List Char)
    (h : FilterTsv.matchToks (.lit l :: ts) cs = true) :
    FilterTsv.ciStarts l cs = true := by
  induction l generalizing cs with
  | nil => simp [FilterTsv.ciStarts]
  | cons x l ih =>
    cases cs with
    | nil => simp [FilterTsv.matchToks] at h
    | cons c cs =>
      simp only [FilterTsv.matchToks, Bool.and_eq_true] at h
      simp only [FilterTsv.ciStarts, Bool.and_eq_true]
      exact ⟨h.1, ih cs h.2⟩

theorem ciStarts_of_fixed (l : List Char) :
    ∀ t : List Char, (∀ c ∈ t, Char.toLower c = c) →
      FilterTsv.ciStarts l t = (lowerList l).isPrefixOf t := by
  induction l with
  | nil => intro t _; simp [FilterTsv.ciStarts, lowerList, List.isPrefixOf]
  | cons x l ih =>
    intro t ht
    cases t with
    | nil => simp [FilterTsv.ciStarts, lowerList, List.isPrefixOf]
    | cons c cs =>
      have hc : Char.toLower c = c := ht c (List.mem_cons_self c cs)
      have hcs : ∀ a ∈ cs, Char.toLower a = a := fun a ha => ht a (List.mem_cons_of_mem c ha)
      simp only [FilterTsv.ciStarts, lowerList, List.map_cons, List.isPrefixOf,
        Bool.and_eq_true, FilterTsv.ciEq, hc]
      rw [ih cs hcs]
      congr 1

/-- C10: the bulk instrument predicate is extensionally a plain substring
test — it accepts exactly the non-empty strings containing "timstof"
case-insensitively; the eight multi-word sub-model patterns never change the
result because every pattern begins with the base literal "timsTOF". -/
theorem c10_timstof_predicate_is_substring_test (instruments_str : List Char) :
    FilterTsv.check_timstof_instrument instruments_str =
      FilterTsv.timstof_substring_spec instruments_str := by
  by_cases hs : instruments_str = []
  · simp [FilterTsv.check_timstof_instrument, FilterTsv.timstof_substring_spec, hs]
  · rw [Bool.eq_iff_iff]
    have hfix : ∀ c ∈ lowerList instruments_str, Char.toLower c = c :=
      lowerList_fixed instruments_str
    have hlow : lowerList "timsTOF".toList = "timstof".toList := by decide
    constructor
    · intro h
      simp only [FilterTsv.check_timstof_instrument, if_neg hs, List.any_eq_true] at h
      rcases h with ⟨p, hp, hsearch⟩
      simp only [FilterTsv.searchToks, List.any_eq_true] at hsearch
      rcases hsearch with ⟨t, htmem, hmatch⟩
      have htfix : ∀ c ∈ t, Char.toLower c = c := by
        intro c hc
        exact hfix c (((List.mem_tails _ _).mp htmem).subset hc)
      have hstart : FilterTsv.ciStarts "timsTOF".toList t = true := by
        simp only [FilterTsv.timstof_patterns, List.mem_cons, List.mem_singleton,
          List.not_mem_nil, or_false] at hp
        rcases hp with rfl | rfl | rfl | rfl | rfl | rfl | rfl | rfl | rfl <;>
          exact matchToks_lit_head _ _ _ hmatch
      have hpre : ("timstof".toList).isPrefixOf t = true := by
        rw [← hlow, ← ciStarts_of_fixed _ t htfix]
        exact hstart
      simp only [FilterTsv.timstof_substring_spec, Bool.and_eq_true, decide_eq_true_eq]
      refine ⟨hs, ?_⟩
      simp only [containsSub, List.any_eq_true]
      exact ⟨t, htmem, hpre⟩
    · intro h
      simp only [FilterTsv.timstof_substring_spec, Bool.and_eq_true, decide_eq_true_eq,
        containsSub, List.any_eq_true] at h
      rcases h with ⟨-, t, htmem, hpre⟩
      have htfix : ∀ c ∈ t, Char.toLower c = c := by
        intro c hc
        exact hfix c (((List.mem_tails _ _).mp htmem).subset hc)
      have hstart : FilterTsv.ciStarts "timsTOF".toList t = true := by
        rw [ciStarts_of_fixed _ t htfix, hlow]
        exact hpre
      simp only [FilterTsv.check_timstof_instrument, if_neg hs, List.any_eq_true]
      refine ⟨[.lit "timsTOF".toList], by simp [FilterTsv.timstof_patterns], ?_⟩
      simp only [FilterTsv.searchToks, List.any_eq_true]
      exact ⟨t, htmem, by rw [matchToks_single_lit]; exact hstart⟩

/-- C5: the live-query classifier accepts exactly when all required terms
occur in the combined title/sample/diseases text, some instrument contains
"timstof", and the sample text contains a specimen-type term; the claim's
concrete accepted and rejected projects behave as stated. -/
theorem c5_matches_strict_criteria :
    (∀ p : TestQuery.Project,
      TestQuery.matches_strict_criteria p = true ↔
        ((∀ t ∈ TestQuery.REQUIRED_TERMS,
            containsSub t.toList (TestQuery.combinedText p) = true) ∧
         (∃ i ∈ (p.instrument.getD []).map lowerList,
            containsSub (lowerList TestQuery.REQUIRED_INSTRUMENT.toList) i = true) ∧
         (∃ t ∈ TestQuery.SAMPLE_TERMS,
            containsSub t.toList (TestQuery.sampleText p) = true))) ∧
    TestQuery.matches_strict_criteria TestQuery.exampleAccepted = true ∧
    TestQuery.matches_strict_criteria TestQuery.exampleRejected = false := by
  refine ⟨?_, by decide, by decide⟩
  intro p
  unfold TestQuery.matches_strict_criteria
  cases hA : (TestQuery.REQUIRED_TERMS.all fun t =>
      containsSub t.toList (TestQuery.combinedText p)) with
  | false =>
    simp only [hA, Bool.not_false, if_true]
    constructor
    · intro h; cases h
    · rintro ⟨hall, -, -⟩
      rw [← List.all_eq_true] at hall
      rw [hA] at hall
      cases hall
  | true =>
    cases hB : ((p.instrument.getD []).map lowerList).any (fun i =>
        containsSub (lowerList TestQuery.REQUIRED_INSTRUMENT.toList) i) with
    | false =>
      simp only [hA, hB]
      simp only [Bool.not_true, Bool.not_false, if_false, if_true]
      constructor
      · intro h; cases h
      · rintro ⟨-, hany, -⟩
        rw [← List.any_eq_true] at hany
        rw [hB] at hany
        cases hany
    | true =>
      cases hC : (TestQuery.SAMPLE_TERMS.any fun t =>
          containsSub t.toList (TestQuery.sampleText p)) with
      | false =>
        simp only [hA, hB, hC]
        simp only [Bool.not_true, Bool.not_false, if_false, if_true]
        constructor
        · intro h; cases h
        · rintro ⟨-, -, hany⟩
          rw [← List.any_eq_true] at hany
          rw [hC] at hany
          cases hany
      | true =>
        simp only [hA, hB, hC]
        simp only [Bool.not_true, if_false]
        rw [List.all_eq_true] at hA
        rw [List.any_eq_true] at hB hC
        exact iff_of_true rfl ⟨hA, hB, hC⟩

/-- C6: on the concatenated input `'{"a":1}{"b":2}'` both scanners emit
exactly the two object strings, in order. -/
theorem c6_scanner_two_objects :
    UpdatedJsonParser.find_json_objects_streaming "\x7b\"a\":1\x7d\x7b\"b\":2\x7d".toList =
      ["\x7b\"a\":1\x7d".toList, "\x7b\"b\":2\x7d".toList] ∧
    PrideNewParser.load_pride_json_scan "\x7b\"a\":1\x7d\x7b\"b\":2\x7d".toList =
      ["\x7b\"a\":1\x7d".toList, "\x7b\"b\":2\x7d".toList] := by
  constructor <;> rfl

/-- C7: a closing brace inside a quoted string value does not terminate the
candidate: on `'{"text": "a } brace"}'` both scanners emit exactly one
candidate, the whole object. -/
theorem c7_string_aware_brace_counting :
    UpdatedJsonParser.find_json_objects_streaming
      "\x7b\"text\": \"a \x7d brace\"\x7d".toList =
      ["\x7b\"text\": \"a \x7d brace\"\x7d".toList] ∧
    PrideNewParser.load_pride_json_scan "\x7b\"text\": \"a \x7d brace\"\x7d".toList =
      ["\x7b\"text\": \"a \x7d brace\"\x7d".toList] := by
  constructor <;> rfl

/-- C2 counterexample: in the `load_pride_json` scanner a separator comma
read at depth 0, outside any string, is NOT discarded — it is carried into
the candidate emitted for the next object. -/
theorem c2_counterexample_concat_scanner_keeps_separator :
    PrideNewParser.load_pride_json_scan "\x7b\"a\":1\x7d,\x7b\"b\":2\x7d".toList =
      ["\x7b\"a\":1\x7d".toList, ",\x7b\"b\":2\x7d".toList] := by
  rfl

theorem stepS_noop (st : UpdatedJsonParser.ScanState) (c : Char)
    (h1 : st.brace_count = 0) (h2 : st.in_string = false) (h3 : st.escape_next = false)
    (h4 : c ≠ '\x7b') (h5 : c ≠ '\x7d') (h6 : c ≠ '"') (h7 : c ≠ '\\') :
    UpdatedJsonParser.stepS st c = (st, none) := by
  simp [UpdatedJsonParser.stepS, h1, h2, h3, h4, h5, h6, h7]

/-- C2 (amended): in the STREAMING scanner, a character read while depth is
0, outside a string, with no escape pending, and not a brace, double-quote
or backslash (stray whitespace or separators) is discarded: deleting it
changes neither the scanner state nor any emitted candidate. -/
theorem c2_amended_streaming_discards_separators
    (pre suf : List Char) (c : Char)
    (h1 : (UpdatedJsonParser.scanS pre).1.brace_count = 0)
    (h2 : (UpdatedJsonParser.scanS pre).1.in_string = false)
    (h3 : (UpdatedJsonParser.scanS pre).1.escape_next = false)
    (h4 : c ≠ '\x7b') (h5 : c ≠ '\x7d') (h6 : c ≠ '"') (h7 : c ≠ '\\') :
    UpdatedJsonParser.find_json_objects_streaming (pre ++ c :: suf) =
      UpdatedJsonParser.find_json_objects_streaming (pre ++ suf) := by
  have hP : UpdatedJsonParser.scanStep (UpdatedJsonParser.scanS pre) c =
      UpdatedJsonParser.scanS pre := by
    unfold UpdatedJsonParser.scanStep
    rw [stepS_noop _ c h1 h2 h3 h4 h5 h6 h7]
    simp
  have key : UpdatedJsonParser.scanS (pre ++ c :: suf) =
      UpdatedJsonParser.scanS (pre ++ suf) := by
    show List.foldl UpdatedJsonParser.scanStep (UpdatedJsonParser.initState, []) _ =
      List.foldl UpdatedJsonParser.scanStep (UpdatedJsonParser.initState, []) _
    rw [List.foldl_append, List.foldl_append, List.foldl_cons]
    congr 1
  unfold UpdatedJsonParser.find_json_objects_streaming
  rw [key]

/-- C2 (amended) witness: deleting the separator comma between the two
objects leaves the streaming scanner's output unchanged. -/
theorem c2_amended_streaming_discards_separators_witness :
    UpdatedJsonParser.find_json_objects_streaming
      ("\x7b\"a\":1\x7d".toList ++ ',' :: "\x7b\"b\":2\x7d".toList) =
    UpdatedJsonParser.find_json_objects_streaming
      ("\x7b\"a\":1\x7d".toList ++ "\x7b\"b\":2\x7d".toList) :=
  c2_amended_streaming_discards_separators _ _ ','
    (by decide) (by decide) (by decide) (by decide) (by decide) (by decide) (by decide)

/-- C3 counterexample: on a file whose first line is blank and whose second
line is a JSON object, `detect_file_format` answers "unknown" while the
claim's first-non-empty-line rule answers "json". -/
theorem c3_counterexample_blank_first_line :
    PrideNewParser.detect_file_format ["\n".toList, "\x7b\"a\":1\x7d".toList] = "unknown" ∧
    PrideNewParser.detect_format_claim ["\n".toList, "\x7b\"a\":1\x7d".toList] = "json" := by
  constructor <;> rfl

/-- C3 (amended): the detector applies the json/tsv/csv/unknown decision tree
to the FIRST line of the file (whitespace-stripped), not the first non-empty
line. -/
theorem c3_amended_first_line_decision_tree (lines : List (List Char)) :
    PrideNewParser.detect_file_format lines = PrideNewParser.detect_format_amended lines := by
  unfold PrideNewParser.detect_file_format PrideNewParser.detect_format_amended
  set fl := pyStrip (lines.headD []) with hfl
  cases hb : PrideNewParser.startsWithChar '\x7b' fl <;>
  cases hbr : PrideNewParser.startsWithChar '[' fl <;>
  cases ht : fl.contains '\t' <;>
  cases hc : fl.contains ',' <;>
  cases hq : PrideNewParser.startsWithChar '"' fl <;>
    simp at ht hc <;>
    simp [hb, hbr, ht, hc, hq]

/-- C8: the tolerant object parser parses `'{"a":1,}'`: the repair
substitution strips the trailing comma before the closing brace and the
repaired string `'{"a":1}'` parses strictly to the mapping a ↦ 1. -/
theorem c8_trailing_comma_repair :
    UpdatedJsonParser.clean_json_string "\x7b\"a\":1,\x7d".toList =
      "\x7b\"a\":1\x7d".toList ∧
    UpdatedJsonParser.parse_json_object "\x7b\"a\":1,\x7d".toList =
      some [("a".toList, PyJson.JVal.num "1".toList)] := by
  constructor <;> rfl

theorem firstNonEmpty_eq_find (d : List (String × List Char)) (al : List String) :
    UpdatedJsonParser.firstNonEmpty d al =
      (al.find? (fun x => !((d.lookup x).getD []).isEmpty)).map
        (fun a => (d.lookup a).getD []) := by
  induction al with
  | nil => rfl
  | cons a rest ih =>
    unfold UpdatedJsonParser.firstNonEmpty
    cases hl : d.lookup a with
    | none => simp [List.find?, hl, ih]
    | some v =>
      cases v with
      | nil => simp [List.find?, hl, ih]
      | cons x xs => simp [List.find?, hl]

/-- C9: field normalization assigns the value of the first alias present in
the record with a non-empty value, later aliases being ignored — both for
`extract_field_value` (with the string formatting of the parser) and for the
column mapping of `load_pride_csv`. -/
theorem c9_first_alias_priority :
    (∀ (dataset : List (String × List Char)) (field_name : String)
       (aliases : List String) (a : String),
      UpdatedJsonParser.target_fields.lookup field_name = some aliases →
      aliases.find? (fun x => !((dataset.lookup x).getD []).isEmpty) = some a →
      UpdatedJsonParser.extract_field_value dataset field_name =
        UpdatedJsonParser.format_field_value ((dataset.lookup a).getD [])) ∧
    (∀ (row : List (String × List Char)) (standard_key : String)
       (cols : List String) (a : String),
      PrideNewParser.column_mapping.lookup standard_key = some cols →
      cols.find? (fun x => !((row.lookup x).getD []).isEmpty) = some a →
      PrideNewParser.map_column row standard_key = some ((row.lookup a).getD [])) := by
  constructor
  · intro dataset field_name aliases a h1 h2
    unfold UpdatedJsonParser.extract_field_value
    rw [h1]
    dsimp only
    rw [firstNonEmpty_eq_find, h2]
    rfl
  · intro row standard_key cols a h1 h2
    unfold PrideNewParser.map_column
    rw [h1]
    dsimp only
    rw [firstNonEmpty_eq_find, h2]
    rfl

/-- C9 witness: with both `title` and `dataset_title` populated, the
canonical title takes `title`'s value. -/
theorem c9_first_alias_priority_witness :
    UpdatedJsonParser.extract_field_value
      [("title", "T1".toList), ("dataset_title", "T2".toList)] "title" =
      "T1".toList := by
  have h := c9_first_alias_priority.1
    [("title", "T1".toList), ("dataset_title", "T2".toList)] "title"
    ["title", "dataset_title", "name"] "title" (by decide) (by decide)
  simpa using h
